import Mathlib

/-!
Shallow embedding of the Farkle backend's persistence model and CRUD layer
(`backend/models.py`, `backend/crud.py`), with the Pydantic request schemas
from `backend/schemas.py`.

Modelling conventions:
* The SQLAlchemy session plus SQLite store is modelled as an explicit `DB`
  value threaded through every operation.  Each CRUD function returns its
  result together with the store as left after the request: a raised
  exception means the session is closed without commit, so the committed
  store is returned unchanged.
* `uuid.uuid4()` is modelled as an injective generator `mkId` indexed by a
  counter held in the `DB`; the assumption that freshly drawn uuids never
  collide with ids already present in the store is the predicate `GenFresh`.
* SQL aggregates (`SUM`, `AVG`, `MAX`) return `NULL` on an empty group; that
  is modelled with `Option`, and Python's `x or 0` / `x or 0.0` coercions
  with `pyOrInt` / `pyOrRat`, which follow Python truthiness (`0 or d = d`).
* `datetime` values are modelled as `Nat`; the current time is an explicit
  `now` argument.  The unused `created_at` server-default columns are
  omitted; `Game.played_at` is kept because `create_game_result` sets it.
* Integer columns are `Int` (the schemas put no range constraint on them).
* Python floats produced by `AVG` are modelled as `Rat`.
-/

deriving instance DecidableEq for Except

namespace Farkle

/-- Row of the `users` table (`backend/models.py`, class `User`). -/
structure UserRow where
  user_id : String
  login_type : String
deriving DecidableEq

/-- Row of the `player_profiles` table (`backend/models.py`, class `PlayerProfile`). -/
structure PlayerProfileRow where
  player_id : String
  user_id : String
  display_name : String
deriving DecidableEq

/-- Row of the `games` table (`backend/models.py`, class `Game`). -/
structure GameRow where
  game_id : String
  user_id : String
  played_at : Nat
deriving DecidableEq

/-- Row of the `game_results` table (`backend/models.py`, class `GameResult`).
`player_id` is nullable (`ondelete="SET NULL"`). -/
structure GameResultRow where
  result_id : String
  game_id : String
  player_id : Option String
  score : Int
  turns_taken : Int
  farkles : Int
  won : Bool
deriving DecidableEq

/-- The persistent store: the four tables, plus the counter that drives the
fresh-uuid generator `mkId`. -/
structure DB where
  users : List UserRow
  players : List PlayerProfileRow
  games : List GameRow
  results : List GameResultRow
  nextId : Nat
deriving DecidableEq

/-- `uuid.uuid4()` modelled as an injective counter-indexed id generator. -/
def mkId (n : Nat) : String :=
  String.mk (List.replicate (n + 1) 'u')

/-- `db.get(User, user_id)`: primary-key lookup in `users`. -/
def findUser (db : DB) (uid : String) : Option UserRow :=
  db.users.find? (fun u => u.user_id == uid)

/-- `db.get(PlayerProfile, player_id)`: primary-key lookup in `player_profiles`. -/
def findPlayer (db : DB) (pid : String) : Option PlayerProfileRow :=
  db.players.find? (fun p => p.player_id == pid)

/-- Pydantic schema `GameResultEntry` (`backend/schemas.py`). -/
structure GameResultEntry where
  player_id : String
  score : Int
  turns : Int
  farkles : Int
  won : Bool
deriving DecidableEq

/-- Errors raised by the CRUD layer: `HTTPException(status, detail)`, and the
`AttributeError` raised by `res.get(...)` when a falsy field value makes
`getattr(res, f, None) or res.get(f)` fall through to the nonexistent `get`
method of a Pydantic model. -/
inductive CrudError where
  | httpException (status : Nat) (detail : String)
  | attributeError
deriving DecidableEq

/-- `getattr(res, f, None) or res.get(f)` for a `str` field of a Pydantic
entry: the attribute value is returned if truthy (nonempty); a falsy value
falls through to `res.get`, which raises `AttributeError`. -/
def pyFieldStr (v : String) : Except CrudError String :=
  if v == "" then .error .attributeError else .ok v

/-- `getattr(res, f, None) or res.get(f)` for an `int` field: falsy means `0`. -/
def pyFieldInt (v : Int) : Except CrudError Int :=
  if v == 0 then .error .attributeError else .ok v

/-- `getattr(res, f, None) or res.get(f)` for a `bool` field: falsy means `False`. -/
def pyFieldBool (v : Bool) : Except CrudError Bool :=
  if v then .ok v else .error .attributeError

/-- Field extraction for one result entry, in source order
(`crud.py` lines 72-76): `player_id`, `score`, `turns`, `farkles`, `won`. -/
def extractEntry (e : GameResultEntry) :
    Except CrudError (String × Int × Int × Int × Bool) := do
  let pid ← pyFieldStr e.player_id
  let score ← pyFieldInt e.score
  let turns ← pyFieldInt e.turns
  let farkles ← pyFieldInt e.farkles
  let won ← pyFieldBool e.won
  .ok (pid, score, turns, farkles, won)

/-- `create_player` (`crud.py` lines 21-43): ensure the user exists (creating
an anonymous one if absent, committed at once), then create and commit a new
`PlayerProfile` with a fresh uuid; returns the generated `player_id`. -/
def create_player (db : DB) (user_id display_name : String) : String × DB :=
  let db1 :=
    match findUser db user_id with
    | some _ => db
    | none =>
      { db with users := db.users ++
          [({ user_id := user_id, login_type := "anonymous" } : UserRow)] }
  let player_id := mkId db1.nextId
  (player_id,
    { db1 with
      players := db1.players ++
        [({ player_id := player_id, user_id := user_id,
            display_name := display_name } : PlayerProfileRow)],
      nextId := db1.nextId + 1 })

/-- The loop body of `create_game_result` (`crud.py` lines 69-89): extract the
entry's fields, look the player up, and build the pending `GameResult` rows.
`n` indexes the uuids drawn for `result_id`s; the final counter is returned. -/
def processEntries (db : DB) (gid : String) :
    Nat → List GameResultEntry → Except CrudError (List GameResultRow × Nat)
  | n, [] => .ok ([], n)
  | n, e :: rest => do
    let (pid, score, turns, farkles, won) ← extractEntry e
    match findPlayer db pid with
    | none => .error (.httpException 404 ("Player " ++ pid ++ " not found"))
    | some _ => do
      let (rows, n') ← processEntries db gid (n + 1) rest
      .ok ({ result_id := mkId n, game_id := gid, player_id := some pid,
             score := score, turns_taken := turns, farkles := farkles,
             won := won } :: rows, n')

/-- `create_game_result` (`crud.py` lines 46-91): 404 if the user is unknown;
otherwise a pending `Game` row and one pending `GameResult` row per entry are
built, and everything is committed at the end.  Any exception on the way
(unknown player, `AttributeError` from field extraction) leaves the committed
store unchanged, since the single commit is never reached. -/
def create_game_result (db : DB) (user_id : String) (played_at : Option Nat)
    (now : Nat) (results : List GameResultEntry) : Except CrudError String × DB :=
  match findUser db user_id with
  | none => (.error (.httpException 404 "User not found"), db)
  | some user =>
    match processEntries db (mkId db.nextId) (db.nextId + 1) results with
    | .error e => (.error e, db)
    | .ok (rows, n') =>
      (.ok (mkId db.nextId),
        { db with
          games := db.games ++
            [({ game_id := mkId db.nextId, user_id := user.user_id,
                played_at := played_at.getD now } : GameRow)],
          results := db.results ++ rows,
          nextId := n' })

/-- The rows of `game_results` whose `player_id` equals the given (non-null)
player id: `filter(GameResult.player_id == player_id)`; `NULL` never matches. -/
def playerResults (db : DB) (pid : String) : List GameResultRow :=
  db.results.filter (fun r => r.player_id == some pid)

/-- SQL `SUM` over an integer column: `NULL` on an empty group. -/
def sqlSum (l : List Int) : Option Int :=
  match l with
  | [] => none
  | _ => some (l.foldl (· + ·) 0)

/-- SQL `AVG` over an integer column: `NULL` on an empty group, otherwise the
arithmetic mean sum/count as a float (modelled as `Rat`; written with `mkRat`,
which equals the division for the nonempty groups reaching it and evaluates by
kernel reduction). -/
def sqlAvg (l : List Int) : Option Rat :=
  match l with
  | [] => none
  | _ => some (mkRat (l.foldl (· + ·) 0) l.length)

/-- SQL `MAX` over an integer column: `NULL` on an empty group. -/
def sqlMax (l : List Int) : Option Int :=
  l.foldl (fun a x => match a with | none => some x | some m => some (max m x)) none

/-- `cast(GameResult.won, Integer)`. -/
def castWonInt (b : Bool) : Int := if b then 1 else 0

/-- Python `v or 0` on a nullable SQL integer, following Python truthiness. -/
def pyOrInt (v : Option Int) : Int :=
  match v with
  | none => 0
  | some x => if x == 0 then 0 else x

/-- Python `v or 0.0` on a nullable SQL float, following Python truthiness. -/
def pyOrRat (v : Option Rat) : Rat :=
  match v with
  | none => 0
  | some x => if x == 0 then 0 else x

/-- The dictionary returned by `get_player_stats`, compatible with
`PlayerStatsResponse` (`backend/schemas.py`). -/
structure PlayerStats where
  player_id : String
  display_name : String
  games_played : Nat
  wins : Int
  total_points : Int
  avg_score : Rat
  total_farkles : Int
  high_score : Int
deriving DecidableEq

/-- `get_player_stats` (`crud.py` lines 94-128): 404 `"Player not found"` if
the profile is absent; otherwise the six aggregates over the player's
`GameResult` rows, with `NULL`s coerced as in the source (`or 0`,
`avg_score if not None else 0.0`). -/
def get_player_stats (db : DB) (player_id : String) :
    Except CrudError PlayerStats × DB :=
  match findPlayer db player_id with
  | none => (.error (.httpException 404 "Player not found"), db)
  | some player =>
    let rs := playerResults db player_id
    let gamesPlayed := rs.length
    (.ok
      { player_id := player.player_id
        display_name := player.display_name
        games_played := if gamesPlayed == 0 then 0 else gamesPlayed
        wins := pyOrInt (sqlSum (rs.map (fun r => castWonInt r.won)))
        total_points := pyOrInt (sqlSum (rs.map (fun r => r.score)))
        avg_score :=
          match sqlAvg (rs.map (fun r => r.score)) with
          | none => 0
          | some a => a
        total_farkles := pyOrInt (sqlSum (rs.map (fun r => r.farkles)))
        high_score := pyOrInt (sqlMax (rs.map (fun r => r.score))) }, db)

/-- One raw row of the leaderboard / user-players aggregation query, before
the Python `or` coercions: the aggregate columns are nullable. -/
structure AggRow where
  player_id : String
  display_name : String
  wins : Option Int
  avg_score : Option Rat
  total_points : Option Int
deriving DecidableEq

/-- The aggregate row the `GROUP BY (player_id, display_name)` query produces
for one profile, from the `GameResult` rows joined to it. -/
def aggOfPlayer (db : DB) (p : PlayerProfileRow) : AggRow :=
  let rs := playerResults db p.player_id
  { player_id := p.player_id
    display_name := p.display_name
    wins := sqlSum (rs.map (fun r => castWonInt r.won))
    avg_score := sqlAvg (rs.map (fun r => r.score))
    total_points := sqlSum (rs.map (fun r => r.score)) }

/-- The leaderboard aggregation (`crud.py` lines 139-150): inner join of
`player_profiles` with `game_results` on `player_id`, grouped by the profile
primary key.  Since `player_id` is the primary key, one group arises per
profile having at least one joined result; this is modelled as filter + map
over the profiles list (exact whenever the profile `player_id`s are nodup,
which the primary-key constraint guarantees). -/
def leaderboardAggregation (db : DB) : List AggRow :=
  (db.players.filter (fun p => !(playerResults db p.player_id).isEmpty)).map
    (aggOfPlayer db)

/-- The validated leaderboard sort key (`main.py` restricts `sort` to this
set with a regex before `get_leaderboard` is reached). -/
inductive SortKey where
  | avg_score
  | wins
  | total_points
deriving DecidableEq

/-- `getattr(row, sort) or 0`: the Python sort key of an aggregation row,
embedded into `Rat` (Python compares the ints and floats numerically). -/
def sortVal (s : SortKey) (r : AggRow) : Rat :=
  match s with
  | .wins => ((pyOrInt r.wins : Int) : Rat)
  | .avg_score => pyOrRat r.avg_score
  | .total_points => ((pyOrInt r.total_points : Int) : Rat)

/-- The comparison of the descending stable sort: `a` may precede `b` iff
`b`'s key is at most `a`'s (Python `sorted(..., reverse=True)`). -/
def lbLe (s : SortKey) (a b : AggRow) : Prop :=
  sortVal s b ≤ sortVal s a

instance (s : SortKey) (a b : AggRow) : Decidable (lbLe s a b) :=
  inferInstanceAs (Decidable (sortVal s b ≤ sortVal s a))

instance (s : SortKey) : IsTotal AggRow (lbLe s) :=
  ⟨fun a b => le_total (sortVal s b) (sortVal s a)⟩

instance (s : SortKey) : IsTrans AggRow (lbLe s) :=
  ⟨fun _ _ _ h1 h2 => le_trans h2 h1⟩

/-- One response dictionary of `get_leaderboard` / `get_user_players`,
compatible with `LeaderboardEntry` / `PlayerInfoEntry`. -/
structure PlayerSummary where
  player_id : String
  display_name : String
  wins : Int
  avg_score : Rat
  total_points : Int
deriving DecidableEq

/-- The response-building comprehension (`crud.py` lines 156-165 and
192-201): `int(row.wins or 0)`, `float(row.avg_score or 0.0)`,
`int(row.total_points or 0)`. -/
def toSummary (r : AggRow) : PlayerSummary :=
  { player_id := r.player_id
    display_name := r.display_name
    wins := pyOrInt r.wins
    avg_score := pyOrRat r.avg_score
    total_points := pyOrInt r.total_points }

/-- `get_leaderboard` (`crud.py` lines 131-165): aggregate, stable-sort
descending by the chosen key (CPython's `sorted` is a stable sort, and all
stable sorts of a list under the same total preorder return the same list, so
it is modelled by the stable `List.insertionSort`), truncate to `limit`, then
build the response dictionaries. -/
def get_leaderboard (db : DB) (s : SortKey) (limit : Nat) :
    List PlayerSummary × DB :=
  (((List.insertionSort (lbLe s) (leaderboardAggregation db)).take limit).map
      toSummary,
    db)

/-- The user-players aggregation (`crud.py` lines 179-191): left outer join of
the user's profiles with `game_results`, grouped by the profile primary key;
profiles with no results keep `NULL` aggregates. -/
def userPlayersAggregation (db : DB) (uid : String) : List AggRow :=
  (db.players.filter (fun p => p.user_id == uid)).map (aggOfPlayer db)

/-- `get_user_players` (`crud.py` lines 169-201): 404 `"User not found"` if
the user is absent; otherwise one summary per profile owned by the user, with
`NULL` aggregates coerced to zeroes. -/
def get_user_players (db : DB) (user_id : String) :
    Except CrudError (List PlayerSummary) × DB :=
  match findUser db user_id with
  | none => (.error (.httpException 404 "User not found"), db)
  | some _ => (.ok ((userPlayersAggregation db user_id).map toSummary), db)

/-- All ids in the store that are drawn from the uuid generator. -/
def allGenIds (db : DB) : List String :=
  db.players.map (fun p => p.player_id) ++ db.games.map (fun g => g.game_id) ++
    db.results.map (fun r => r.result_id) ++ db.results.map (fun r => r.game_id)

/-- The uuid-uniqueness assumption: ids the generator has not yet produced do
not occur in the store. -/
def GenFresh (db : DB) : Prop :=
  ∀ k, db.nextId ≤ k → mkId k ∉ allGenIds db

/-- The Section-3 invariant of the spec: no two `GameResult` rows share a game
id and a non-null player id. -/
def ResultsOk (l : List GameResultRow) : Prop :=
  l.Pairwise (fun r1 r2 =>
    ¬(r1.game_id = r2.game_id ∧ r1.player_id ≠ none ∧ r1.player_id = r2.player_id))

/-- One call to a write operation of the CRUD layer. -/
inductive WriteOp where
  | register (user_id display_name : String)
  | submit (user_id : String) (played_at : Option Nat) (now : Nat)
      (entries : List GameResultEntry)
deriving DecidableEq

/-- The store left behind by one write operation (a failed submission leaves
the store unchanged, so this is total). -/
def applyOp (db : DB) : WriteOp → DB
  | .register u n => (create_player db u n).2
  | .submit u t now es => (create_game_result db u t now es).2

/-- Submissions whose entry list carries pairwise-distinct player ids. -/
def OpOk : WriteOp → Prop
  | .register _ _ => True
  | .submit _ _ _ es => (es.map (fun e => e.player_id)).Nodup

/-- An entry all of whose field values are truthy in Python, so that the
`getattr(res, f, None) or res.get(f)` extraction returns them instead of
raising `AttributeError`. -/
def EntryTruthy (e : GameResultEntry) : Prop :=
  e.player_id ≠ "" ∧ e.score ≠ 0 ∧ e.turns ≠ 0 ∧ e.farkles ≠ 0 ∧ e.won = true

/-- The chosen sort key read back from a response dictionary. -/
def summaryVal (s : SortKey) (r : PlayerSummary) : Rat :=
  match s with
  | .wins => (r.wins : Rat)
  | .avg_score => r.avg_score
  | .total_points => (r.total_points : Rat)

/-- The profiles with at least one `GameResult` referencing them. -/
def qualifyingPlayers (db : DB) : List PlayerProfileRow :=
  db.players.filter (fun p => decide (playerResults db p.player_id ≠ []))

/-- Statement of claim C5 at one store, sort key and limit: every returned
summary belongs to a player with at least one `GameResult` (so zero-game
players never appear) and carries that player's display name, win count,
average score and total points; and whenever `limit` does not truncate,
the returned summaries are exactly one per qualifying player. -/
def LeaderboardMembership (db : DB) (s : SortKey) (limit : Nat) : Prop :=
  (∀ row ∈ (get_leaderboard db s limit).1,
    playerResults db row.player_id ≠ [] ∧
    ∃ p ∈ db.players, row.player_id = p.player_id ∧
      row.display_name = p.display_name ∧
      row.wins = ((playerResults db p.player_id).countP (fun r => r.won) : Int) ∧
      row.avg_score * ((playerResults db p.player_id).length : Rat)
        = (((playerResults db p.player_id).map (fun r => r.score)).sum : Rat) ∧
      row.total_points
        = ((playerResults db p.player_id).map (fun r => r.score)).sum) ∧
  ((qualifyingPlayers db).length ≤ limit →
    ((get_leaderboard db s limit).1.map (fun row => row.player_id)).Perm
      ((qualifyingPlayers db).map (fun p => p.player_id)))

/-- Statement of claim C6 at one store, sort key and limit: the returned list
is non-increasing in the chosen key, its length is `limit` capped by the
number of qualifying players, and with `limit = 1` the single returned entry
attains the maximum key value among all qualifying players. -/
def LeaderboardSorted (db : DB) (s : SortKey) (limit : Nat) : Prop :=
  List.Pairwise (fun a b => summaryVal s b ≤ summaryVal s a)
    (get_leaderboard db s limit).1 ∧
  (get_leaderboard db s limit).1.length = min limit (qualifyingPlayers db).length ∧
  (limit = 1 → ∀ row ∈ (get_leaderboard db s limit).1, ∀ p ∈ db.players,
    playerResults db p.player_id ≠ [] →
    sortVal s (aggOfPlayer db p) ≤ summaryVal s row)

/-- Statement of claim C7 at one store and user id: NotFound for an unknown
user; for an existing user, exactly one summary per profile owned by the
user (in the table's order), zero-game players included with zero-valued
aggregates instead of being omitted. -/
def UserPlayersCorrect (db : DB) (uid : String) : Prop :=
  (findUser db uid = none →
    (get_user_players db uid).1 = .error (.httpException 404 "User not found")) ∧
  (findUser db uid ≠ none →
    ∃ out, (get_user_players db uid).1 = .ok out ∧
      List.Forall₂ (fun (p : PlayerProfileRow) (row : PlayerSummary) =>
          row.player_id = p.player_id ∧ row.display_name = p.display_name ∧
          row.wins
            = ((playerResults db p.player_id).countP (fun r => r.won) : Int) ∧
          row.total_points
            = ((playerResults db p.player_id).map (fun r => r.score)).sum ∧
          (playerResults db p.player_id = [] →
            row.wins = 0 ∧ row.avg_score = 0 ∧ row.total_points = 0) ∧
          (playerResults db p.player_id ≠ [] →
            row.avg_score * ((playerResults db p.player_id).length : Rat)
              = (((playerResults db p.player_id).map (fun r => r.score)).sum
                  : Rat)))
        (db.players.filter (fun p => p.user_id == uid)) out)

/-- Statement of claim C8 at one store and request: `create_player` returns
the freshly generated profile id, appends exactly one profile carrying it (and
nothing else to the other tables), and touches `users` only when the user id
is new, in which case exactly one anonymous user is added. -/
def CreatePlayerSpec (db : DB) (uid name : String) : Prop :=
  (create_player db uid name).1 = mkId db.nextId ∧
  (create_player db uid name).2.players
    = db.players ++ [{ player_id := (create_player db uid name).1,
                       user_id := uid, display_name := name }] ∧
  (create_player db uid name).1 ∉ db.players.map (fun p => p.player_id) ∧
  (findUser db uid ≠ none → (create_player db uid name).2.users = db.users) ∧
  (findUser db uid = none →
    (create_player db uid name).2.users
      = db.users ++ [{ user_id := uid, login_type := "anonymous" }]) ∧
  (create_player db uid name).2.games = db.games ∧
  (create_player db uid name).2.results = db.results

/-! Concrete stores and inputs used by the closed theorems below. -/

/-- A store holding one user and nothing else. -/
def dbU : DB :=
  { users := [{ user_id := "u", login_type := "anonymous" }]
    players := [], games := [], results := [], nextId := 0 }

/-- A store holding one user and one of their player profiles. -/
def dbUP : DB :=
  { users := [{ user_id := "u", login_type := "anonymous" }]
    players := [{ player_id := "p", user_id := "u", display_name := "Alice" }]
    games := [], results := [], nextId := 0 }

/-- A store with a finished game: player `p` won with 9800 over 8700
(the worked example of Section 8 of the spec, also the seeded dev data). -/
def dbSeed : DB :=
  { users := [{ user_id := "u", login_type := "anonymous" }]
    players := [{ player_id := "p", user_id := "u", display_name := "Alice" },
                { player_id := "q", user_id := "u", display_name := "Bob" }]
    games := [{ game_id := "g1", user_id := "u", played_at := 0 }]
    results := [
      { result_id := "r1", game_id := "g1", player_id := some "p", score := 9800,
        turns_taken := 8, farkles := 1, won := true },
      { result_id := "r2", game_id := "g1", player_id := some "q", score := 8700,
        turns_taken := 9, farkles := 3, won := false } ]
    nextId := 0 }

/-- A store with two players having one game each and a third with none. -/
def dbL : DB :=
  { users := [{ user_id := "u", login_type := "anonymous" }]
    players := [{ player_id := "p1", user_id := "u", display_name := "A" },
                { player_id := "p2", user_id := "u", display_name := "B" },
                { player_id := "p3", user_id := "u", display_name := "C" }]
    games := [{ game_id := "g1", user_id := "u", played_at := 0 }]
    results := [
      { result_id := "r1", game_id := "g1", player_id := some "p1", score := 100,
        turns_taken := 1, farkles := 2, won := true },
      { result_id := "r2", game_id := "g1", player_id := some "p2", score := 300,
        turns_taken := 1, farkles := 1, won := false } ]
    nextId := 0 }

/-- A submission naming the same existing player twice, with all field values
truthy. -/
def dupEntries : List GameResultEntry :=
  [{ player_id := "p", score := 10, turns := 1, farkles := 1, won := true },
   { player_id := "p", score := 20, turns := 2, farkles := 1, won := true }]

/-- A submission whose two player ids are both unknown; the first entry has a
falsy `farkles` value. -/
def twoUnknownEntries : List GameResultEntry :=
  [{ player_id := "g1", score := 100, turns := 1, farkles := 0, won := true },
   { player_id := "g2", score := 50, turns := 1, farkles := 1, won := true }]

/-- A short write sequence: register a player for `u`, then record a game the
new player (whose generated id is `mkId 0`) won. -/
def opsW : List WriteOp :=
  [.register "u" "Alice",
   .submit "u" none 7
     [{ player_id := mkId 0, score := 10, turns := 1, farkles := 1,
        won := true }]]

/-- A submission prefix whose single entry names the existing player `p` with
all-truthy fields. -/
def preW : List GameResultEntry :=
  [{ player_id := "p", score := 10, turns := 1, farkles := 1, won := true }]

/-- The first entry of a submission whose player id `zz` is unknown. -/
def eW : GameResultEntry :=
  { player_id := "zz", score := 20, turns := 2, farkles := 1, won := true }

/-- A trailing entry naming a second unknown player id `yy`. -/
def postW : List GameResultEntry :=
  [{ player_id := "yy", score := 30, turns := 3, farkles := 2, won := true }]

/-! Theorems.  First, helper lemmas about the SQL aggregate helpers and the
id generator; the claim theorems follow. -/

theorem foldl_add_eq_add_sum (l : List Int) :
    ∀ a : Int, l.foldl (· + ·) a = a + l.sum := by
  induction l with
  | nil => intro a; simp
  | cons b l ih =>
    intro a
    simp only [List.foldl_cons, List.sum_cons, ih (a + b)]
    ring

theorem foldl_add_eq_sum (l : List Int) : l.foldl (· + ·) 0 = l.sum := by
  simpa using foldl_add_eq_add_sum l 0

theorem sqlSum_of_ne_nil {l : List Int} (h : l ≠ []) : sqlSum l = some l.sum := by
  cases l with
  | nil => exact absurd rfl h
  | cons a l => simp [sqlSum, foldl_add_eq_add_sum]

theorem sqlAvg_of_ne_nil {l : List Int} (h : l ≠ []) :
    sqlAvg l = some (mkRat l.sum l.length) := by
  cases l with
  | nil => exact absurd rfl h
  | cons a l => simp [sqlAvg, foldl_add_eq_add_sum]

theorem pyOrInt_some (x : Int) : pyOrInt (some x) = x := by
  by_cases h : x = 0 <;> simp [pyOrInt, h]

theorem pyOrRat_some (x : Rat) : pyOrRat (some x) = x := by
  by_cases h : x = 0 <;> simp [pyOrRat, h]

theorem castWonInt_sum (l : List GameResultRow) :
    (l.map (fun r => castWonInt r.won)).sum
      = (l.countP (fun r => r.won) : Int) := by
  induction l with
  | nil => simp
  | cons r l ih =>
    simp only [List.map_cons, List.sum_cons, ih, List.countP_cons]
    by_cases h : r.won
    · simp [castWonInt, h]
      ring
    · simp [castWonInt, h]

theorem sqlMax_go (l : List Int) : ∀ a : Int,
    ∃ m, List.foldl
        (fun acc x => match acc with | none => some x | some c => some (max c x))
        (some a) l = some m ∧
      (m = a ∨ m ∈ l) ∧ a ≤ m ∧ ∀ x ∈ l, x ≤ m := by
  induction l with
  | nil => intro a; exact ⟨a, rfl, Or.inl rfl, le_refl a, by simp⟩
  | cons b l ih =>
    intro a
    obtain ⟨m, hfold, hmem, hle, hbound⟩ := ih (max a b)
    refine ⟨m, hfold, ?_, le_trans (le_max_left a b) hle, ?_⟩
    · rcases hmem with h | h
      · rcases max_choice a b with hc | hc
        · exact Or.inl (h.trans hc)
        · exact Or.inr (by simp [h.trans hc])
      · exact Or.inr (List.mem_cons_of_mem b h)
    · intro x hx
      rcases List.mem_cons.mp hx with rfl | hx
      · exact le_trans (le_max_right a x) hle
      · exact hbound x hx

theorem sqlMax_of_ne_nil {l : List Int} (h : l ≠ []) :
    ∃ m, sqlMax l = some m ∧ m ∈ l ∧ ∀ x ∈ l, x ≤ m := by
  cases l with
  | nil => exact absurd rfl h
  | cons a l =>
    obtain ⟨m, hfold, hmem, hle, hbound⟩ := sqlMax_go l a
    refine ⟨m, ?_, ?_, ?_⟩
    · simpa [sqlMax] using hfold
    · rcases hmem with rfl | h
      · exact List.mem_cons_self _ _
      · exact List.mem_cons_of_mem a h
    · intro x hx
      rcases List.mem_cons.mp hx with rfl | hx
      · exact hle
      · exact hbound x hx

theorem mkRat_mul_length {l : List Int} (h : l ≠ []) :
    mkRat l.sum l.length * (l.length : Rat) = (l.sum : Rat) := by
  have h0 : l.length ≠ 0 := fun hl => h (List.length_eq_zero.mp hl)
  have hlen : (l.length : Rat) ≠ 0 := by exact_mod_cast h0
  rw [Rat.mkRat_eq_div, div_mul_cancel₀ _ hlen]


/-- Claim C1: the claim says a submission whose entry references an unknown
player fails with NotFound naming that player and persists nothing.  The
store-unchanged half holds, but the failure kind does not: on the concrete
store `dbU` (user `u`, no players), an entry for the unknown player `ghost`
with `won := false` makes the field extraction
`getattr(res, "won", None) or res.get("won")` fall through to the
nonexistent `get` method of the Pydantic model, so the call raises
`AttributeError` (HTTP 500) instead of the promised
`HTTPException(404, "Player ghost not found")`. -/
theorem submit_unknown_player_crashes :
    (create_game_result dbU "u" none 0
        [{ player_id := "ghost", score := 500, turns := 3, farkles := 2,
           won := false }]).1 = .error .attributeError ∧
    (create_game_result dbU "u" none 0
        [{ player_id := "ghost", score := 500, turns := 3, farkles := 2,
           won := false }]).1
      ≠ .error (.httpException 404 "Player ghost not found") ∧
    (create_game_result dbU "u" none 0
        [{ player_id := "ghost", score := 500, turns := 3, farkles := 2,
           won := false }]).2 = dbU := by
  decide

/-- Claim C2: the claim says an accepted submission persists one `GameResult`
per entry with the submitted values, including entries with zero fields or
`won = false`.  On the concrete store `dbUP` (user `u`, player `p`), the
everyday losing entry `score 8700, won := false` — the very shape the dev
seed data stores directly — raises `AttributeError` in the field extraction
instead, and nothing is persisted. -/
theorem submit_losing_entry_crashes :
    (create_game_result dbUP "u" none 0
        [{ player_id := "p", score := 8700, turns := 9, farkles := 3,
           won := false }]).1 = .error .attributeError ∧
    (create_game_result dbUP "u" none 0
        [{ player_id := "p", score := 8700, turns := 9, farkles := 3,
           won := false }]).2 = dbUP := by
  decide

/-- Claim C4, counterexample: an accepted submission naming the same existing
player twice produces two `GameResult` rows with the same game id and the
same non-null player id, so the claimed invariant fails. -/
theorem duplicate_player_submission_breaks_invariant :
    (create_game_result dbUP "u" none 0 dupEntries).1 = .ok (mkId 0) ∧
    ¬ ResultsOk ((create_game_result dbUP "u" none 0 dupEntries).2.results) := by
  constructor
  · decide
  · unfold ResultsOk
    decide

/-- Claim C5, counterexample: on the store `dbL`, player `p1` has a
`GameResult`, yet `get_leaderboard` with `limit = 1` (a valid limit) returns
no summary for `p1` — truncation removes qualifying players, so the claim as
stated (for every valid limit, one summary per qualifying player) fails. -/
theorem leaderboard_truncation_drops_qualifying_player :
    playerResults dbL "p1" ≠ [] ∧
    "p1" ∉ ((get_leaderboard dbL .total_points 1).1.map
      (fun r => r.player_id)) := by
  decide

/-- Claim C10, counterexample: with user `u` existing and the two unknown
player ids `g1` and `g2` submitted in that order, the claim says the call
fails with NotFound naming `g1`; instead the falsy `farkles := 0` of the
first entry makes the field extraction raise `AttributeError` before the
player lookup, so no NotFound naming any player is produced. -/
theorem first_unknown_not_named_on_falsy_field :
    (create_game_result dbU "u" none 0 twoUnknownEntries).1
      = .error .attributeError ∧
    (create_game_result dbU "u" none 0 twoUnknownEntries).1
      ≠ .error (.httpException 404 "Player g1 not found") := by
  decide

theorem mkId_injective {a b : Nat} (h : mkId a = mkId b) : a = b := by
  have h2 : (List.replicate (a + 1) 'u').length
      = (List.replicate (b + 1) 'u').length := by
    rw [show List.replicate (a + 1) 'u' = (mkId a).data from rfl,
      show List.replicate (b + 1) 'u' = (mkId b).data from rfl, h]
  simp only [List.length_replicate] at h2
  omega

/-- A successful field extraction returns exactly the entry's field values. -/
theorem extractEntry_ok {e : GameResultEntry}
    {v : String × Int × Int × Int × Bool} (h : extractEntry e = .ok v) :
    v = (e.player_id, e.score, e.turns, e.farkles, e.won) := by
  by_cases c1 : e.player_id = "" <;> by_cases c2 : e.score = 0 <;>
    by_cases c3 : e.turns = 0 <;> by_cases c4 : e.farkles = 0 <;>
    by_cases c5 : e.won = true <;>
    simp_all [extractEntry, pyFieldStr, pyFieldInt, pyFieldBool, Bind.bind,
      Except.bind]

/-- Entries with all-truthy fields extract successfully. -/
theorem extractEntry_truthy {e : GameResultEntry} (h : EntryTruthy e) :
    extractEntry e = .ok (e.player_id, e.score, e.turns, e.farkles, e.won) := by
  obtain ⟨h1, h2, h3, h4, h5⟩ := h
  unfold extractEntry pyFieldStr pyFieldInt pyFieldBool
  simp [Bind.bind, Except.bind, h1, h2, h3, h4, h5]

/-- What a successful run of the submission loop produces: a nondecreasing
id counter, one row per entry carrying that entry's player id in order, and
rows stamped with the pending game id and result ids drawn from the counter
range. -/
theorem processEntries_ok (db : DB) (gid : String) :
    ∀ (es : List GameResultEntry) (n : Nat) (rows : List GameResultRow)
      (n' : Nat), processEntries db gid n es = .ok (rows, n') →
      n ≤ n' ∧
      rows.map (fun r => r.player_id) = es.map (fun e => some e.player_id) ∧
      ∀ r ∈ rows, r.game_id = gid ∧
        ∃ j, n ≤ j ∧ j < n' ∧ r.result_id = mkId j := by
  intro es
  induction es with
  | nil =>
    intro n rows n' h
    rw [processEntries] at h
    obtain ⟨rfl, rfl⟩ : rows = [] ∧ n' = n := by
      constructor <;> [exact (congrArg Prod.fst (Except.ok.inj h)).symm;
        exact (congrArg Prod.snd (Except.ok.inj h)).symm]
    exact ⟨le_refl _, rfl, by simp⟩
  | cons e rest ih =>
    intro n rows n' h
    rw [processEntries] at h
    cases hex : extractEntry e with
    | error err => rw [hex] at h; exact absurd h (by simp [Bind.bind, Except.bind])
    | ok v =>
      obtain rfl := extractEntry_ok hex
      rw [hex] at h
      simp only [Bind.bind, Except.bind] at h
      cases hfp : findPlayer db e.player_id with
      | none => rw [hfp] at h; exact absurd h (by simp)
      | some pl =>
        rw [hfp] at h
        cases hrec : processEntries db gid (n + 1) rest with
        | error err => rw [hrec] at h; exact absurd h (by simp)
        | ok pair =>
          obtain ⟨rows', m⟩ := pair
          rw [hrec] at h
          simp only [Except.ok.injEq, Prod.mk.injEq] at h
          obtain ⟨hrows, hn'⟩ := h
          obtain ⟨hle, hmap, hrange⟩ := ih (n + 1) rows' m hrec
          subst hrows hn'

          refine ⟨by omega, ?_, ?_⟩
          · simp [hmap]
          · intro r hr
            rcases List.mem_cons.mp hr with rfl | hr
            · exact ⟨rfl, n, le_refl _, by omega, rfl⟩
            · obtain ⟨hg, j, hj1, hj2, hj3⟩ := hrange r hr
              exact ⟨hg, j, by omega, hj2, hj3⟩

/-- Membership in the list of generated ids, unfolded. -/
theorem mem_allGenIds {db : DB} {x : String} :
    x ∈ allGenIds db ↔
      (∃ p ∈ db.players, p.player_id = x) ∨
      (∃ g ∈ db.games, g.game_id = x) ∨
      (∃ r ∈ db.results, r.result_id = x) ∨
      ∃ r ∈ db.results, r.game_id = x := by
  unfold allGenIds
  simp only [List.mem_append, List.mem_map]
  constructor
  · rintro (((⟨p, hp, hpe⟩ | ⟨g, hg, hge⟩) | ⟨r, hr, hre⟩) | ⟨r, hr, hre⟩)
    · exact Or.inl ⟨p, hp, hpe⟩
    · exact Or.inr (Or.inl ⟨g, hg, hge⟩)
    · exact Or.inr (Or.inr (Or.inl ⟨r, hr, hre⟩))
    · exact Or.inr (Or.inr (Or.inr ⟨r, hr, hre⟩))
  · rintro (⟨p, hp, hpe⟩ | ⟨g, hg, hge⟩ | ⟨r, hr, hre⟩ | ⟨r, hr, hre⟩)
    · exact Or.inl (Or.inl (Or.inl ⟨p, hp, hpe⟩))
    · exact Or.inl (Or.inl (Or.inr ⟨g, hg, hge⟩))
    · exact Or.inl (Or.inr ⟨r, hr, hre⟩)
    · exact Or.inr ⟨r, hr, hre⟩

/-- `create_player` keeps uuid freshness and adds no `GameResult` rows. -/
theorem create_player_preserves (db : DB) (uid name : String)
    (hfresh : GenFresh db) (hok : ResultsOk db.results) :
    ResultsOk ((create_player db uid name).2.results) ∧
    GenFresh ((create_player db uid name).2) := by
  have hres : (create_player db uid name).2.results = db.results := by
    unfold create_player
    cases hu : findUser db uid <;> rfl
  have hplayers : (create_player db uid name).2.players
      = db.players ++ [{ player_id := mkId db.nextId, user_id := uid,
                         display_name := name }] := by
    unfold create_player
    cases hu : findUser db uid <;> rfl
  have hgames : (create_player db uid name).2.games = db.games := by
    unfold create_player
    cases hu : findUser db uid <;> rfl
  have hnext : (create_player db uid name).2.nextId = db.nextId + 1 := by
    unfold create_player
    cases hu : findUser db uid <;> rfl
  refine ⟨hres ▸ hok, ?_⟩
  intro k hk hmem
  rw [hnext] at hk
  have hmem2 := mem_allGenIds.mp hmem
  rw [hplayers, hgames, hres] at hmem2
  rcases hmem2 with ⟨p, hp, hpe⟩ | ⟨g, hg, hge⟩ | ⟨r, hr, hre⟩ | ⟨r, hr, hre⟩
  · rcases List.mem_append.mp hp with hp | hp
    · exact hfresh k (by omega) (mem_allGenIds.mpr (Or.inl ⟨p, hp, hpe⟩))
    · rcases List.mem_singleton.mp hp with rfl
      have : mkId db.nextId = mkId k := hpe
      have := mkId_injective this
      omega
  · exact hfresh k (by omega) (mem_allGenIds.mpr (Or.inr (Or.inl ⟨g, hg, hge⟩)))
  · exact hfresh k (by omega)
      (mem_allGenIds.mpr (Or.inr (Or.inr (Or.inl ⟨r, hr, hre⟩))))
  · exact hfresh k (by omega)
      (mem_allGenIds.mpr (Or.inr (Or.inr (Or.inr ⟨r, hr, hre⟩))))

/-- `create_game_result` keeps uuid freshness and — when the submitted player
ids are pairwise distinct — the one-result-per-player invariant. -/
theorem create_game_result_preserves (db : DB) (uid : String)
    (t : Option Nat) (now : Nat) (es : List GameResultEntry)
    (hfresh : GenFresh db) (hok : ResultsOk db.results)
    (hnodup : (es.map (fun e => e.player_id)).Nodup) :
    ResultsOk ((create_game_result db uid t now es).2.results) ∧
    GenFresh ((create_game_result db uid t now es).2) := by
  unfold create_game_result
  cases hu : findUser db uid with
  | none => exact ⟨hok, hfresh⟩
  | some u =>
    cases hp : processEntries db (mkId db.nextId) (db.nextId + 1) es with
    | error err => exact ⟨hok, hfresh⟩
    | ok pair =>
      obtain ⟨rows, n'⟩ := pair
      obtain ⟨hle, hmap, hrange⟩ := processEntries_ok db _ es _ rows n' hp
      have hgid : ∀ r ∈ rows, r.game_id = mkId db.nextId :=
        fun r hr => (hrange r hr).1
      have holdgid : ∀ r ∈ db.results, r.game_id ≠ mkId db.nextId := by
        intro r hr heq
        apply hfresh db.nextId (le_refl _)
        rw [← heq]
        unfold allGenIds
        exact List.mem_append_right _ (List.mem_map_of_mem _ hr)
      constructor
      · show ResultsOk (db.results ++ rows)
        unfold ResultsOk at hok ⊢
        rw [List.pairwise_append]
        refine ⟨hok, ?_, ?_⟩
        · have hsome : (fun e : GameResultEntry => some e.player_id)
              = (some ∘ fun e : GameResultEntry => e.player_id) := rfl
          have hnodup2 : (rows.map (fun r => r.player_id)).Nodup := by
            rw [hmap, hsome, ← List.map_map]
            exact hnodup.map (Option.some_injective _)
          exact (List.pairwise_map.mp hnodup2).imp
            (fun hab h => hab h.2.2)
        · rintro a ha b hb ⟨hgame, -, -⟩
          exact holdgid a ha (hgame.trans (hgid b hb))
      · intro k hk hmem
        have hk3 : n' ≤ k := hk
        have hk2 : db.nextId ≤ k := by omega
        have hkid : ∀ j, j < n' → mkId k ≠ mkId j := by
          intro j hj heq
          have := mkId_injective heq
          omega
        rcases mem_allGenIds.mp hmem with
          ⟨p, hp, hpe⟩ | ⟨g, hg, hge⟩ | ⟨r, hr, hre⟩ | ⟨r, hr, hre⟩
        · exact hfresh k hk2 (mem_allGenIds.mpr (Or.inl ⟨p, hp, hpe⟩))
        · rcases List.mem_append.mp hg with hg | hg
          · exact hfresh k hk2
              (mem_allGenIds.mpr (Or.inr (Or.inl ⟨g, hg, hge⟩)))
          · rcases List.mem_singleton.mp hg with rfl
            exact hkid db.nextId (by omega) hge.symm
        · rcases List.mem_append.mp hr with hr | hr
          · exact hfresh k hk2
              (mem_allGenIds.mpr (Or.inr (Or.inr (Or.inl ⟨r, hr, hre⟩))))
          · obtain ⟨-, j, -, hj2, hj3⟩ := hrange r hr
            exact hkid j hj2 (hre.symm.trans hj3)
        · rcases List.mem_append.mp hr with hr | hr
          · exact hfresh k hk2
              (mem_allGenIds.mpr (Or.inr (Or.inr (Or.inr ⟨r, hr, hre⟩))))
          · exact hkid db.nextId (by omega) (hre.symm.trans (hrange r hr).1)

/-- Claim C3: for an existing player profile, `get_player_stats` succeeds and
returns `games_played` equal to the number of `GameResult` rows referencing
the player, `wins` equal to the number of those rows with the win flag set,
`total_points` and `total_farkles` equal to the sums of their scores and
farkle counts, `avg_score` equal to the arithmetic mean of the scores (`0`
over zero rows), and `high_score` equal to the maximum single-game score
(`0` over zero rows); no zero-row aggregate yields null or an error. -/
theorem get_player_stats_correct (db : DB) (pid : String) (p : PlayerProfileRow)
    (hp : findPlayer db pid = some p) :
    ∃ s : PlayerStats, (get_player_stats db pid).1 = .ok s ∧
      s.player_id = p.player_id ∧ s.display_name = p.display_name ∧
      s.games_played = (playerResults db pid).length ∧
      s.wins = ((playerResults db pid).countP (fun r => r.won) : Int) ∧
      s.total_points = ((playerResults db pid).map (fun r => r.score)).sum ∧
      s.total_farkles = ((playerResults db pid).map (fun r => r.farkles)).sum ∧
      (playerResults db pid = [] →
        s.avg_score = 0 ∧ s.high_score = 0) ∧
      (playerResults db pid ≠ [] →
        s.avg_score * ((playerResults db pid).length : Rat)
            = (((playerResults db pid).map (fun r => r.score)).sum : Rat) ∧
        s.high_score ∈ (playerResults db pid).map (fun r => r.score) ∧
        ∀ x ∈ (playerResults db pid).map (fun r => r.score),
          x ≤ s.high_score) := by
  unfold get_player_stats
  rw [hp]
  refine ⟨_, rfl, rfl, rfl, ?_, ?_, ?_, ?_, ?_, ?_⟩
  · by_cases h : (playerResults db pid).length = 0 <;> simp [h]
  · by_cases h : playerResults db pid = []
    · simp [h, sqlSum, pyOrInt]
    · have hm : (playerResults db pid).map (fun r => castWonInt r.won) ≠ [] := by
        simpa using h
      rw [sqlSum_of_ne_nil hm, pyOrInt_some, castWonInt_sum]
  · by_cases h : playerResults db pid = []
    · simp [h, sqlSum, pyOrInt]
    · have hm : (playerResults db pid).map (fun r => r.score) ≠ [] := by
        simpa using h
      rw [sqlSum_of_ne_nil hm, pyOrInt_some]
  · by_cases h : playerResults db pid = []
    · simp [h, sqlSum, pyOrInt]
    · have hm : (playerResults db pid).map (fun r => r.farkles) ≠ [] := by
        simpa using h
      rw [sqlSum_of_ne_nil hm, pyOrInt_some]
  · intro h
    simp [h, sqlAvg, sqlMax, pyOrInt]
  · intro h
    have hm : (playerResults db pid).map (fun r => r.score) ≠ [] := by
      simpa using h
    obtain ⟨m, hmax, hmem, hbound⟩ := sqlMax_of_ne_nil hm
    rw [sqlAvg_of_ne_nil hm, hmax, pyOrInt_some]
    refine ⟨?_, hmem, hbound⟩
    have := mkRat_mul_length hm
    simpa [List.length_map] using this

/-- Claim C3, witness: the stats of player `p` in the seeded store `dbSeed`
(scores 9800 won and 8700 lost). -/
theorem get_player_stats_correct_witness :
    findPlayer dbSeed "p"
        = some { player_id := "p", user_id := "u", display_name := "Alice" } ∧
    ∃ s : PlayerStats, (get_player_stats dbSeed "p").1 = .ok s ∧
      s.player_id = "p" ∧ s.display_name = "Alice" ∧
      s.games_played = (playerResults dbSeed "p").length ∧
      s.wins = ((playerResults dbSeed "p").countP (fun r => r.won) : Int) ∧
      s.total_points = ((playerResults dbSeed "p").map (fun r => r.score)).sum ∧
      s.total_farkles
          = ((playerResults dbSeed "p").map (fun r => r.farkles)).sum ∧
      (playerResults dbSeed "p" = [] →
        s.avg_score = 0 ∧ s.high_score = 0) ∧
      (playerResults dbSeed "p" ≠ [] →
        s.avg_score * ((playerResults dbSeed "p").length : Rat)
            = (((playerResults dbSeed "p").map (fun r => r.score)).sum : Rat) ∧
        s.high_score ∈ (playerResults dbSeed "p").map (fun r => r.score) ∧
        ∀ x ∈ (playerResults dbSeed "p").map (fun r => r.score),
          x ≤ s.high_score) :=
  ⟨by decide, get_player_stats_correct dbSeed "p"
    { player_id := "p", user_id := "u", display_name := "Alice" } (by decide)⟩

/-- Claim C8: `register-player` never fails with NotFound (it is a total
function of the store): for an unknown user id exactly one anonymous `User`
is created, for an existing user id no `User` is added (idempotent on the
user side); in both cases exactly one new `PlayerProfile` with the freshly
generated id is created, and that id — not colliding with any existing
profile id, by uuid freshness — is returned. -/
theorem create_player_spec (db : DB) (uid name : String)
    (hfresh : GenFresh db) : CreatePlayerSpec db uid name := by
  have hnotin : mkId db.nextId ∉ db.players.map (fun p => p.player_id) := by
    intro hmem
    exact hfresh db.nextId (le_refl _)
      (List.mem_append_left _ (List.mem_append_left _ (List.mem_append_left _ hmem)))
  unfold CreatePlayerSpec
  cases hu : findUser db uid with
  | none => simp [create_player, hu, hnotin]
  | some u => simp [create_player, hu, hnotin]

/-- Claim C8, witness: registering a player named Dave for the existing user
`u` of the store `dbU`, whose generated ids are all fresh. -/
theorem create_player_spec_witness :
    GenFresh dbU ∧ CreatePlayerSpec dbU "u" "Dave" :=
  ⟨fun _ _ => by simp [allGenIds, dbU],
    create_player_spec dbU "u" "Dave" (fun _ _ => by simp [allGenIds, dbU])⟩

/-- The fields of the summary built for one profile, split by whether the
profile has any joined `GameResult` rows. -/
theorem toSummary_aggOfPlayer (db : DB) (p : PlayerProfileRow) :
    (toSummary (aggOfPlayer db p)).player_id = p.player_id ∧
    (toSummary (aggOfPlayer db p)).display_name = p.display_name ∧
    (toSummary (aggOfPlayer db p)).wins
      = ((playerResults db p.player_id).countP (fun r => r.won) : Int) ∧
    (toSummary (aggOfPlayer db p)).total_points
      = ((playerResults db p.player_id).map (fun r => r.score)).sum ∧
    (playerResults db p.player_id = [] →
      (toSummary (aggOfPlayer db p)).wins = 0 ∧
      (toSummary (aggOfPlayer db p)).avg_score = 0 ∧
      (toSummary (aggOfPlayer db p)).total_points = 0) ∧
    (playerResults db p.player_id ≠ [] →
      (toSummary (aggOfPlayer db p)).avg_score
          * ((playerResults db p.player_id).length : Rat)
        = (((playerResults db p.player_id).map (fun r => r.score)).sum
            : Rat)) := by
  by_cases h : playerResults db p.player_id = []
  · refine ⟨rfl, rfl, ?_, ?_, fun _ => ?_, fun hne => absurd h hne⟩ <;>
      simp [toSummary, aggOfPlayer, h, sqlSum, sqlAvg, pyOrInt, pyOrRat]
  · have hw : (playerResults db p.player_id).map (fun r => castWonInt r.won)
        ≠ [] := by simpa using h
    have hs : (playerResults db p.player_id).map (fun r => r.score) ≠ [] := by
      simpa using h
    refine ⟨rfl, rfl, ?_, ?_, fun he => absurd he h, fun _ => ?_⟩
    · show pyOrInt (sqlSum ((playerResults db p.player_id).map
        (fun r => castWonInt r.won))) = _
      rw [sqlSum_of_ne_nil hw, pyOrInt_some, castWonInt_sum]
    · show pyOrInt (sqlSum ((playerResults db p.player_id).map
        (fun r => r.score))) = _
      rw [sqlSum_of_ne_nil hs, pyOrInt_some]
    · show pyOrRat (sqlAvg ((playerResults db p.player_id).map
        (fun r => r.score))) * _ = _
      rw [sqlAvg_of_ne_nil hs, pyOrRat_some]
      simpa [List.length_map] using mkRat_mul_length hs

/-- Claim C7: for an existing user, `list-user-players` returns exactly one
summary per `PlayerProfile` owned by that user, including zero-game players
with zero-valued aggregates rather than omitting them; for an unknown user it
fails with NotFound. -/
theorem get_user_players_correct (db : DB) (uid : String) :
    UserPlayersCorrect db uid := by
  unfold UserPlayersCorrect
  cases hu : findUser db uid with
  | none => exact ⟨fun _ => by simp [get_user_players, hu], fun h => absurd rfl h⟩
  | some u =>
    refine ⟨fun h => by simp at h, fun _ => ?_⟩
    refine ⟨(userPlayersAggregation db uid).map toSummary, ?_, ?_⟩
    · simp [get_user_players, hu]
    unfold userPlayersAggregation
    rw [List.map_map, List.forall₂_map_right_iff, List.forall₂_same]
    intro p _
    exact toSummary_aggOfPlayer db p

/-- Claim C7, witness: the user `u` of the store `dbL` owns three profiles,
the third of which has no games and shows zero aggregates. -/
theorem get_user_players_correct_witness :
    findUser dbL "u" ≠ none ∧ UserPlayersCorrect dbL "u" :=
  ⟨by decide, get_user_players_correct dbL "u"⟩

/-- The leaderboard's inner-join filter, rewritten through the decidable
membership predicate of `qualifyingPlayers`. -/
theorem leaderboardAggregation_eq (db : DB) :
    leaderboardAggregation db = (qualifyingPlayers db).map (aggOfPlayer db) := by
  unfold leaderboardAggregation qualifyingPlayers
  congr 1
  apply List.filter_congr
  intro p _
  cases h : playerResults db p.player_id <;> simp [h]

/-- Reading the sort key back from a built response dictionary gives the key
the row was sorted by. -/
theorem summaryVal_toSummary (s : SortKey) (r : AggRow) :
    summaryVal s (toSummary r) = sortVal s r := by
  cases s <;> rfl

/-- Claim C5: every summary `get_leaderboard` returns belongs to a player
with at least one `GameResult` — zero-game players never appear — and carries
that player's display name, win count, average score and total points; when
`limit` does not truncate, the summaries are exactly one per such player.
(As stated in the spec, with "one summary per qualifying player" read for
every limit, the claim fails; see the counterexample.) -/
theorem get_leaderboard_membership (db : DB) (s : SortKey) (limit : Nat) :
    LeaderboardMembership db s limit := by
  unfold LeaderboardMembership
  constructor
  · intro row hrow
    rw [get_leaderboard] at hrow
    obtain ⟨r, hr, rfl⟩ := List.mem_map.mp hrow
    have hr2 : r ∈ leaderboardAggregation db :=
      (List.perm_insertionSort (lbLe s) _).mem_iff.mp (List.mem_of_mem_take hr)
    rw [leaderboardAggregation_eq] at hr2
    obtain ⟨p, hp, rfl⟩ := List.mem_map.mp hr2
    have hpq := List.mem_filter.mp hp
    have hne : playerResults db p.player_id ≠ [] := of_decide_eq_true hpq.2
    obtain ⟨h1, h2, h3, h4, _, h6⟩ := toSummary_aggOfPlayer db p
    refine ⟨?_, p, hpq.1, h1, h2, h3, h6 hne, h4⟩
    rw [h1]
    exact hne
  · intro hlen
    have hsortlen :
        (List.insertionSort (lbLe s) (leaderboardAggregation db)).length
          ≤ limit := by
      rw [List.length_insertionSort, leaderboardAggregation_eq,
        List.length_map]
      exact hlen
    rw [get_leaderboard, List.take_of_length_le hsortlen, List.map_map]
    have hcomp : ((fun row : PlayerSummary => row.player_id) ∘ toSummary)
        = (fun r : AggRow => r.player_id) := rfl
    rw [hcomp]
    refine ((List.perm_insertionSort (lbLe s) _).map
      (fun r : AggRow => r.player_id)).trans ?_
    rw [leaderboardAggregation_eq, List.map_map]
    have hcomp2 : ((fun r : AggRow => r.player_id) ∘ aggOfPlayer db)
        = (fun p : PlayerProfileRow => p.player_id) := rfl
    rw [hcomp2]

/-- Claim C5, witness: on the store `dbL` with the generous limit 10 nothing
is truncated, so the two qualifying players appear exactly once each. -/
theorem get_leaderboard_membership_witness :
    (qualifyingPlayers dbL).length ≤ 10 ∧
    LeaderboardMembership dbL .total_points 10 :=
  ⟨by decide, get_leaderboard_membership dbL .total_points 10⟩

/-- Claim C6: the leaderboard is ordered non-increasingly in the chosen key,
has length `min limit (number of qualifying players)` — truncation happens
after sorting — and with `limit = 1` its single entry attains the maximum
key value among all qualifying players. -/
theorem get_leaderboard_sorted_truncated (db : DB) (s : SortKey)
    (limit : Nat) : LeaderboardSorted db s limit := by
  have hsorted : List.Pairwise (lbLe s)
      (List.insertionSort (lbLe s) (leaderboardAggregation db)) :=
    List.sorted_insertionSort (lbLe s) _
  unfold LeaderboardSorted
  refine ⟨?_, ?_, ?_⟩
  · rw [get_leaderboard, List.pairwise_map]
    exact (hsorted.sublist (List.take_sublist limit _)).imp
      (fun hab => by rw [summaryVal_toSummary, summaryVal_toSummary]; exact hab)
  · rw [get_leaderboard, List.length_map, List.length_take,
      List.length_insertionSort, leaderboardAggregation_eq, List.length_map]
  · intro hlim row hrow p hp hne
    subst hlim
    rw [get_leaderboard] at hrow
    obtain ⟨r, hr, rfl⟩ := List.mem_map.mp hrow
    rw [summaryVal_toSummary]
    have hq : aggOfPlayer db p ∈ leaderboardAggregation db := by
      rw [leaderboardAggregation_eq]
      exact List.mem_map_of_mem _
        (List.mem_filter.mpr ⟨hp, decide_eq_true hne⟩)
    have hq2 : aggOfPlayer db p
        ∈ List.insertionSort (lbLe s) (leaderboardAggregation db) :=
      (List.perm_insertionSort (lbLe s) _).mem_iff.mpr hq
    cases hs : List.insertionSort (lbLe s) (leaderboardAggregation db) with
    | nil =>
      rw [hs] at hq2
      exact absurd hq2 (List.not_mem_nil _)
    | cons r0 rest =>
      rw [hs] at hr hq2 hsorted
      have hr0 : r = r0 := by simpa using hr
      subst hr0
      rcases List.mem_cons.mp hq2 with he | hmem
      · rw [he]
      · exact (List.pairwise_cons.mp hsorted).1 _ hmem

/-- Claim C6, witness: sorting `dbL` by total points with limit 1 returns
one row, and its key dominates both qualifying players' keys. -/
theorem get_leaderboard_sorted_truncated_witness :
    (get_leaderboard dbL .total_points 1).1.length = 1 ∧
    LeaderboardSorted dbL .total_points 1 :=
  ⟨by decide, get_leaderboard_sorted_truncated dbL .total_points 1⟩

/-- Claim C4 (amended): the claimed invariant — at most one `GameResult` per
game and non-null player id — is not enforced for submissions that name the
same player twice (see the counterexample); it does hold after every sequence
of write operations in which each submission's entries carry pairwise-distinct
player ids, starting from any store satisfying the invariant whose generated
ids are fresh. -/
theorem writes_preserve_at_most_one_result_per_player (db : DB)
    (ops : List WriteOp) (hfresh : GenFresh db) (hok : ResultsOk db.results)
    (hops : ∀ op ∈ ops, OpOk op) :
    ResultsOk ((ops.foldl applyOp db).results) := by
  induction ops generalizing db with
  | nil => exact hok
  | cons op rest ih =>
    have hrest : ∀ o ∈ rest, OpOk o :=
      fun o ho => hops o (List.mem_cons_of_mem _ ho)
    have hstep : ResultsOk ((applyOp db op).results) ∧
        GenFresh (applyOp db op) := by
      cases op with
      | register u n => exact create_player_preserves db u n hfresh hok
      | submit u t now es =>
        exact create_game_result_preserves db u t now es hfresh hok
          (hops _ (List.mem_cons_self _ _))
    exact ih (applyOp db op) hstep.2 hstep.1 hrest

/-- Claim C4, witness: running the two writes of `opsW` (a registration and a
nontrivial accepted submission) from the store `dbU` keeps the invariant. -/
theorem writes_preserve_at_most_one_result_per_player_witness :
    GenFresh dbU ∧ ResultsOk dbU.results ∧ (∀ op ∈ opsW, OpOk op) ∧
    ResultsOk ((opsW.foldl applyOp dbU).results) := by
  have hfresh : GenFresh dbU := fun _ _ => by simp [allGenIds, dbU]
  have hok : ResultsOk dbU.results := by unfold ResultsOk dbU; simp
  have hops : ∀ op ∈ opsW, OpOk op := by
    intro op hop
    rcases List.mem_cons.mp hop with rfl | hop
    · trivial
    rcases List.mem_cons.mp hop with rfl | hop
    · show (List.map _ _).Nodup
      decide
    · exact absurd hop (List.not_mem_nil _)
  exact ⟨hfresh, hok, hops,
    writes_preserve_at_most_one_result_per_player dbU opsW hfresh hok hops⟩

/-- The submission loop stops at the first entry whose player id is unknown,
naming it, provided every entry up to and including that one extracts
without an `AttributeError`. -/
theorem processEntries_first_unknown (db : DB) (gid : String) :
    ∀ (pre : List GameResultEntry) (n : Nat) (e : GameResultEntry)
      (post : List GameResultEntry),
      (∀ x ∈ pre, EntryTruthy x ∧ findPlayer db x.player_id ≠ none) →
      EntryTruthy e → findPlayer db e.player_id = none →
      processEntries db gid n (pre ++ e :: post)
        = .error (.httpException 404
            ("Player " ++ e.player_id ++ " not found")) := by
  intro pre
  induction pre with
  | nil =>
    intro n e post _ he hnp
    rw [List.nil_append, processEntries, extractEntry_truthy he]
    simp only [Bind.bind, Except.bind]
    rw [hnp]
  | cons x pre ih =>
    intro n e post hpre he hnp
    obtain ⟨hx, hfx⟩ := hpre x (List.mem_cons_self _ _)
    rw [List.cons_append, processEntries, extractEntry_truthy hx]
    simp only [Bind.bind, Except.bind]
    cases hfp : findPlayer db x.player_id with
    | none => exact absurd hfp hfx
    | some pl =>
      rw [ih (n + 1) e post
        (fun y hy => hpre y (List.mem_cons_of_mem _ hy)) he hnp]

/-- Claim C10 (amended): when the user exists and every entry up to and
including the first unknown-player entry has truthy field values (nonzero
numbers and `won = true`, as the `getattr ... or res.get(...)` extraction
requires to avoid an `AttributeError`; see the counterexample for the falsy
case), the submission fails with NotFound naming exactly the first unknown
player id in entry-list order, and the store is unchanged. -/
theorem submit_names_first_unknown_player (db : DB) (uid : String)
    (t : Option Nat) (now : Nat) (pre : List GameResultEntry)
    (e : GameResultEntry) (post : List GameResultEntry)
    (hu : findUser db uid ≠ none)
    (hpre : ∀ x ∈ pre, EntryTruthy x ∧ findPlayer db x.player_id ≠ none)
    (he : EntryTruthy e) (hnp : findPlayer db e.player_id = none) :
    (create_game_result db uid t now (pre ++ e :: post)).1
      = .error (.httpException 404
          ("Player " ++ e.player_id ++ " not found")) ∧
    (create_game_result db uid t now (pre ++ e :: post)).2 = db := by
  unfold create_game_result
  cases hfu : findUser db uid with
  | none => exact absurd hfu hu
  | some u =>
    rw [processEntries_first_unknown db (mkId db.nextId) pre (db.nextId + 1)
      e post hpre he hnp]
    exact ⟨rfl, rfl⟩

/-- Claim C10, witness: submitting, for the existing user `u` of store
`dbUP`, one entry for the existing player `p` followed by entries for the
unknown players `zz` and `yy` — all with truthy fields — fails with NotFound
naming `zz`, the first unknown id, and stores nothing. -/
theorem submit_names_first_unknown_player_witness :
    findUser dbUP "u" ≠ none ∧
    (∀ x ∈ preW, EntryTruthy x ∧ findPlayer dbUP x.player_id ≠ none) ∧
    EntryTruthy eW ∧ findPlayer dbUP eW.player_id = none ∧
    ((create_game_result dbUP "u" none 0 (preW ++ eW :: postW)).1
        = .error (.httpException 404 "Player zz not found") ∧
      (create_game_result dbUP "u" none 0 (preW ++ eW :: postW)).2 = dbUP) := by
  have hu : findUser dbUP "u" ≠ none := by decide
  have hpre : ∀ x ∈ preW, EntryTruthy x ∧ findPlayer dbUP x.player_id ≠ none := by
    intro x hx
    rcases List.mem_cons.mp hx with rfl | hx
    · exact ⟨⟨by decide, by decide, by decide, by decide, by decide⟩, by decide⟩
    · exact absurd hx (List.not_mem_nil _)
  have he : EntryTruthy eW :=
    ⟨by decide, by decide, by decide, by decide, by decide⟩
  have hnp : findPlayer dbUP eW.player_id = none := by decide
  exact ⟨hu, hpre, he, hnp,
    submit_names_first_unknown_player dbUP "u" none 0 preW eW postW
      hu hpre he hnp⟩

/-- Claim C9: the three read operations `get_player_stats`, `get_leaderboard`
and `get_user_players` return the store unchanged, whether they succeed or
fail with NotFound: they never add, delete or commit rows. -/
theorem reads_leave_store_unchanged (db : DB) (pid uid : String) (s : SortKey)
    (limit : Nat) :
    (get_player_stats db pid).2 = db ∧ (get_leaderboard db s limit).2 = db ∧
    (get_user_players db uid).2 = db := by
  refine ⟨?_, rfl, ?_⟩
  · unfold get_player_stats
    cases findPlayer db pid <;> rfl
  · unfold get_user_players
    cases findUser db uid <;> rfl

end Farkle
